import Mathlib

/-!
Verification of the Fortuna Protocol client SDK utilities and of the
market/bet/fee state machine described in the protocol specification.

The SDK functions (calculateFees, calculatePotentialWinnings,
generateLicenseKey, formatAmount, parseAmount, categoriesToBoolArray,
boolArrayToCategories, and the bet PDA seed layout) are translated from
the repository's TypeScript sources.  BN.js values are arbitrary
precision integers whose division truncates toward zero, so they are
modelled as Int with Int.tdiv; byte strings are lists of byte values and
decimal digit strings are lists of digit values.
-/

namespace Fortuna

/-- Basis points denominator, from sdk/src/constants.ts. -/
def BPS_DENOMINATOR : Int := 10000

/-- Fee breakdown record returned by calculateFees (sdk/src/types.ts). -/
structure FeeBreakdown where
  poolFee : Int
  creatorFee : Int
  protocolFee : Int
  netAmount : Int
  totalFees : Int
  deriving DecidableEq

/-- calculateFees from the sdk utils: each fee component is
amount * bps / 10000 with BN division (truncation toward zero),
totalFees is their sum and netAmount the remainder. -/
def calculateFees (amount protocolFeeBps creatorFeeBps poolFeeBps : Int) :
    FeeBreakdown :=
  let poolFee := Int.tdiv (amount * poolFeeBps) BPS_DENOMINATOR
  let creatorFee := Int.tdiv (amount * creatorFeeBps) BPS_DENOMINATOR
  let protocolFee := Int.tdiv (amount * protocolFeeBps) BPS_DENOMINATOR
  let totalFees := poolFee + creatorFee + protocolFee
  { poolFee := poolFee
    creatorFee := creatorFee
    protocolFee := protocolFee
    netAmount := amount - totalFees
    totalFees := totalFees }

/-- calculatePotentialWinnings from the sdk utils: simulates the fee
split of a prospective bet and returns the bettor's share of the
distributable pool, with the degenerate zero-denominator case paying
the whole distributable amount. -/
def calculatePotentialWinnings
    (betAmount currentOutcomeTotal totalPool bonusPool : Int)
    (protocolFeeBps creatorFeeBps poolFeeBps : Int) : Int :=
  let fees := calculateFees betAmount protocolFeeBps creatorFeeBps poolFeeBps
  let newOutcomeTotal := currentOutcomeTotal + fees.netAmount
  let totalDistributable := totalPool + bonusPool + fees.netAmount
  if newOutcomeTotal = 0 then totalDistributable
  else Int.tdiv (fees.netAmount * totalDistributable) newOutcomeTotal

/-- One step of generateLicenseKey's loop body applied to the whole
remaining input: hash[i % 32] ^= data[i] for each byte in turn. -/
def licenseKeyFold : List Nat → Nat → List Nat → List Nat
  | [], _, hash => hash
  | b :: rest, i, hash =>
      licenseKeyFold rest (i + 1)
        (hash.set (i % 32) (Nat.xor (hash.getD (i % 32) 0) b))

/-- generateLicenseKey from the sdk utils, on the UTF-8 bytes of the
issuer-chosen seed string: XOR-folds the bytes into a fresh 32-byte
array. -/
def generateLicenseKey (data : List Nat) : List Nat :=
  licenseKeyFold data 0 (List.replicate 32 0)

/-- Seed bytes of the 33-character seed made of one a then 32 b. -/
def seedAThenBs : List Nat := 97 :: List.replicate 32 98

/-- Seed bytes of the 33-character seed made of 32 b then one a. -/
def seedBsThenA : List Nat := List.replicate 32 98 ++ [97]

/-- Decimal digit list (most significant digit first) of a natural
number, as produced by BN.toString: zero prints as the single digit 0. -/
def natDigits (n : Nat) : List Nat :=
  if n = 0 then [0] else (Nat.digits 10 n).reverse

/-- padStart with zero digits, as in str.padStart(decimals + 1, 0). -/
def padStartZeros (l : List Nat) (len : Nat) : List Nat :=
  List.replicate (len - l.length) 0 ++ l

/-- str.slice(0, -d) on a digit list; empty when d = 0, as in JS. -/
def sliceDropLast (s : List Nat) (d : Nat) : List Nat :=
  if d = 0 then [] else s.take (s.length - d)

/-- str.slice(-d) on a digit list; the whole string when d = 0, as in
JS. -/
def sliceLast (s : List Nat) (d : Nat) : List Nat :=
  if d = 0 then s else s.drop (s.length - d)

/-- formatAmount from the sdk utils, returning the integer-part digits
and the fractional-part digits that flank the emitted decimal point
(the or-else fallback substitutes the single digit 0 for an empty
integer part). -/
def formatAmount (amount decimals : Nat) : List Nat × List Nat :=
  let str := padStartZeros (natDigits amount) (decimals + 1)
  let intPart := sliceDropLast str decimals
  (if intPart = [] then [0] else intPart, sliceLast str decimals)

/-- Numeric value of a digit list read most significant digit first, as
BN parses a decimal string. -/
def digitsValue (l : List Nat) : Nat :=
  l.foldl (fun acc d => acc * 10 + d) 0

/-- decPart.padEnd(decimals, 0).slice(0, decimals). -/
def padEndZerosTake (l : List Nat) (len : Nat) : List Nat :=
  (l ++ List.replicate (len - l.length) 0).take len

/-- parseAmount from the sdk utils on an already-split decimal string
(the split at the decimal point is the inverse of the join performed by
formatAmount, whose parts never contain a point): new BN of the integer
digits followed by the padded fractional digits. -/
def parseAmount (intPart decPart : List Nat) (decimals : Nat) : Nat :=
  digitsValue (intPart ++ padEndZerosTake decPart decimals)

/-- Loop body of categoriesToBoolArray: mark the slot of an in-range
category value and silently ignore anything outside [0, 12). -/
def categoryMark (result : List Bool) (cat : Int) : List Bool :=
  if 0 ≤ cat ∧ cat < 12 then result.set cat.toNat true else result

/-- categoriesToBoolArray from sdk/src/types.ts: a 12-slot boolean
vector with the slot of every in-range category value set. -/
def categoriesToBoolArray (categories : List Int) : List Bool :=
  categories.foldl categoryMark (List.replicate 12 false)

/-- boolArrayToCategories from sdk/src/types.ts: the indices below both
the array length and 12 whose entry is true, in increasing order. -/
def boolArrayToCategories (boolArray : List Bool) : List Int :=
  ((List.range (min boolArray.length 12)).filter
      (fun i => boolArray.getD i false)).map (fun i : Nat => (i : Int))

/-- The 3-byte seed tag bet used by getBetPDA (sdk BET_SEED). -/
def BET_SEED : List Nat := [98, 101, 116]

/-- The seed list passed by getBetPDA: the bet tag, then the 32 bytes of
the market address, then the 32 bytes of the bettor address. -/
def betSeeds (market bettor : List Nat) : List Nat :=
  BET_SEED ++ market ++ bettor

/-!
### Market state machine

The on-chain program (programs/fortuna-protocol/src) is not among the
visible sources, only its integration tests and client are.  The state
machine below is therefore modelled from the specification (sections 4.1
and 4.2) and kept consistent with the behaviour the integration tests
expect.
-/

/-- Modelled from the spec: market status with its two terminal states. -/
inductive MarketStatus where
  | Open
  | Resolved
  | Cancelled
  deriving DecidableEq

/-- Modelled from the spec: per-outcome stake total and bettor count. -/
structure MOutcome where
  totalAmount : Nat
  bettorCount : Nat
  deriving DecidableEq

/-- Modelled from the spec: the Market record fields the state machine
reads and writes. -/
structure Market where
  creator : Nat
  betAmount : Nat
  bettingDeadline : Nat
  resolutionDeadline : Nat
  category : Nat
  oracle : Option Nat
  status : MarketStatus
  winningOutcome : Nat
  totalPool : Nat
  bonusPool : Nat
  outcomes : List MOutcome
  resolvedAt : Nat
  resolvedByOracle : Bool
  deriving DecidableEq

/-- Modelled from the spec: a Bet record. -/
structure Bet where
  outcomeIndex : Nat
  originalAmount : Nat
  poolAmount : Nat
  claimed : Bool
  placedAt : Nat
  deriving DecidableEq

/-- Modelled from the spec: an Oracle record. -/
structure Oracle where
  authority : Nat
  isActive : Bool
  categories : List Bool
  marketsResolved : Nat
  lastResolutionAt : Nat
  deriving DecidableEq

/-- Modelled from the spec: the protocol fee configuration read through
by every fee computation. -/
structure ProtocolConfig where
  protocolFeeBps : Nat
  creatorFeeBps : Nat
  poolFeeBps : Nat
  deriving DecidableEq

/-- Fee split on the ledger's unsigned fixed-point integers. -/
structure FeeSplit where
  poolFee : Nat
  creatorFee : Nat
  protocolFee : Nat
  netAmount : Nat
  totalFees : Nat
  deriving DecidableEq

/-- Modelled from the spec: computeFees of section 4.1, each component
the floor of amount * bps / 10000, with the rounding residue staying in
netAmount. -/
def computeFees (amount protocolFeeBps creatorFeeBps poolFeeBps : Nat) :
    FeeSplit :=
  let poolFee := amount * poolFeeBps / 10000
  let creatorFee := amount * creatorFeeBps / 10000
  let protocolFee := amount * protocolFeeBps / 10000
  let totalFees := poolFee + creatorFee + protocolFee
  { poolFee := poolFee
    creatorFee := creatorFee
    protocolFee := protocolFee
    netAmount := amount - totalFees
    totalFees := totalFees }

/-- Modelled from the spec: the error codes of section 7 that the
transitions below surface. -/
inductive FortunaError where
  | Unauthorized
  | MarketNotOpen
  | MarketNotResolved
  | MarketNotCancelled
  | BettingClosed
  | BettingNotClosed
  | AlreadyClaimed
  | AlreadyBet
  | InvalidOutcome
  | WrongOutcome
  | OracleNotAssigned
  | OracleInactive
  | OracleCategoryMismatch
  deriving DecidableEq

/-- Modelled from the spec: every record a single market names, the two
escrow vaults, the two fee sinks, and a ledger of completed payouts.
Identities are opaque numbers; bets are keyed by bettor identity, which
realizes the unique (market, bettor) addressing within one market. -/
structure FortunaState where
  cfg : ProtocolConfig
  market : Market
  bets : List (Nat × Bet)
  oracles : List (Nat × Oracle)
  stakeVault : Nat
  bonusVault : Nat
  treasuryBalance : Nat
  creatorBalance : Nat
  payouts : List (Nat × Nat)
  deriving DecidableEq

/-- Overwrite the Bet record stored for a bettor. -/
def setBet (bets : List (Nat × Bet)) (bettor : Nat) (b : Bet) :
    List (Nat × Bet) :=
  bets.map (fun p => if p.1 = bettor then (p.1, b) else p)

/-- Bump an oracle's resolution statistics. -/
def bumpOracle (oracles : List (Nat × Oracle)) (oid now : Nat) :
    List (Nat × Oracle) :=
  oracles.map (fun p =>
    if p.1 = oid then
      (p.1, { p.2 with
                marketsResolved := p.2.marketsResolved + 1
                lastResolutionAt := now })
    else p)

/-- Modelled from the spec: place_bet of section 4.2.  Checks status,
deadline, outcome index and the one-bet-per-bettor rule, then splits the
fixed bet amount through the fee engine and credits every destination. -/
def placeBet (s : FortunaState) (bettor now idx : Nat) :
    Except FortunaError FortunaState :=
  if s.market.status = MarketStatus.Open then
    if now < s.market.bettingDeadline then
      if idx < s.market.outcomes.length then
        if (s.bets.lookup bettor).isSome = true then
          Except.error FortunaError.AlreadyBet
        else
          let fees := computeFees s.market.betAmount s.cfg.protocolFeeBps
            s.cfg.creatorFeeBps s.cfg.poolFeeBps
          let o := s.market.outcomes.getD idx { totalAmount := 0, bettorCount := 0 }
          Except.ok
            { s with
              market :=
                { s.market with
                  outcomes := s.market.outcomes.set idx
                    { o with
                      totalAmount := o.totalAmount + fees.netAmount
                      bettorCount := o.bettorCount + 1 }
                  totalPool := s.market.totalPool + fees.netAmount
                  bonusPool := s.market.bonusPool + fees.poolFee }
              stakeVault := s.stakeVault + fees.netAmount
              bonusVault := s.bonusVault + fees.poolFee
              treasuryBalance := s.treasuryBalance + fees.protocolFee
              creatorBalance := s.creatorBalance + fees.creatorFee
              bets := (bettor,
                { outcomeIndex := idx
                  originalAmount := s.market.betAmount
                  poolAmount := fees.netAmount
                  claimed := false
                  placedAt := now }) :: s.bets }
      else Except.error FortunaError.InvalidOutcome
    else Except.error FortunaError.BettingClosed
  else Except.error FortunaError.MarketNotOpen

/-- Modelled from the spec: withdraw_bet of section 4.2.  Returns the
net stake only, marks the bet consumed via the claimed flag, and rolls
the outcome and market totals back. -/
def withdrawBet (s : FortunaState) (bettor now : Nat) :
    Except FortunaError FortunaState :=
  if s.market.status = MarketStatus.Open then
    if now < s.market.bettingDeadline then
      match s.bets.lookup bettor with
      | none => Except.error FortunaError.Unauthorized
      | some bet =>
        if bet.claimed = true then Except.error FortunaError.AlreadyClaimed
        else
          let o := s.market.outcomes.getD bet.outcomeIndex
            { totalAmount := 0, bettorCount := 0 }
          Except.ok
            { s with
              market :=
                { s.market with
                  outcomes := s.market.outcomes.set bet.outcomeIndex
                    { o with
                      totalAmount := o.totalAmount - bet.poolAmount
                      bettorCount := o.bettorCount - 1 }
                  totalPool := s.market.totalPool - bet.poolAmount }
              stakeVault := s.stakeVault - bet.poolAmount
              bets := setBet s.bets bettor { bet with claimed := true }
              payouts := (bettor, bet.poolAmount) :: s.payouts }
    else Except.error FortunaError.BettingClosed
  else Except.error FortunaError.MarketNotOpen

/-- Modelled from the spec: resolve_market of section 4.2, the manual
path restricted to the creator after the betting deadline. -/
def resolveMarket (s : FortunaState) (caller now w : Nat) :
    Except FortunaError FortunaState :=
  if caller = s.market.creator then
    if s.market.status = MarketStatus.Open then
      if s.market.bettingDeadline ≤ now then
        if w < s.market.outcomes.length then
          Except.ok
            { s with
              market :=
                { s.market with
                  status := MarketStatus.Resolved
                  winningOutcome := w
                  resolvedAt := now
                  resolvedByOracle := false } }
        else Except.error FortunaError.InvalidOutcome
      else Except.error FortunaError.BettingNotClosed
    else Except.error FortunaError.MarketNotOpen
  else Except.error FortunaError.Unauthorized

/-- Modelled from the spec: oracle_resolve_market of section 4.2, the
automated path restricted to the assigned oracle's authority, requiring
the oracle active and its category bitmap to include the market's
category. -/
def oracleResolveMarket (s : FortunaState) (caller now w : Nat) :
    Except FortunaError FortunaState :=
  match s.market.oracle with
  | none => Except.error FortunaError.OracleNotAssigned
  | some oid =>
    match s.oracles.lookup oid with
    | none => Except.error FortunaError.OracleNotAssigned
    | some orc =>
      if caller = orc.authority then
        if orc.isActive = true then
          if orc.categories.getD s.market.category false = true then
            if s.market.status = MarketStatus.Open then
              if s.market.bettingDeadline ≤ now then
                if w < s.market.outcomes.length then
                  Except.ok
                    { s with
                      market :=
                        { s.market with
                          status := MarketStatus.Resolved
                          winningOutcome := w
                          resolvedAt := now
                          resolvedByOracle := true }
                      oracles := bumpOracle s.oracles oid now }
                else Except.error FortunaError.InvalidOutcome
              else Except.error FortunaError.BettingNotClosed
            else Except.error FortunaError.MarketNotOpen
          else Except.error FortunaError.OracleCategoryMismatch
        else Except.error FortunaError.OracleInactive
      else Except.error FortunaError.Unauthorized

/-- Modelled from the spec: cancel_market of section 4.2, by the creator
and only while the market is Open. -/
def cancelMarket (s : FortunaState) (caller : Nat) :
    Except FortunaError FortunaState :=
  if caller = s.market.creator then
    if s.market.status = MarketStatus.Open then
      Except.ok
        { s with market := { s.market with status := MarketStatus.Cancelled } }
    else Except.error FortunaError.MarketNotOpen
  else Except.error FortunaError.Unauthorized

/-- Modelled from the spec: claim_winnings of section 4.2.  The
already-claimed guard always fires before any transfer (section 8); the
payout is poolAmount * (totalPool + bonusPool) / winningOutcomeTotal,
degenerating to the whole distributable amount on a zero denominator,
drawn from the stake vault first and the bonus vault for the rest. -/
def claimWinnings (s : FortunaState) (bettor : Nat) :
    Except FortunaError FortunaState :=
  if s.market.status = MarketStatus.Resolved then
    match s.bets.lookup bettor with
    | none => Except.error FortunaError.Unauthorized
    | some bet =>
      if bet.claimed = true then Except.error FortunaError.AlreadyClaimed
      else
        if bet.outcomeIndex = s.market.winningOutcome then
          let wtotal := (s.market.outcomes.getD s.market.winningOutcome
            { totalAmount := 0, bettorCount := 0 }).totalAmount
          let payout :=
            if wtotal = 0 then s.market.totalPool + s.market.bonusPool
            else bet.poolAmount * (s.market.totalPool + s.market.bonusPool) / wtotal
          let fromStake := min payout s.stakeVault
          Except.ok
            { s with
              bets := setBet s.bets bettor { bet with claimed := true }
              stakeVault := s.stakeVault - fromStake
              bonusVault := s.bonusVault - (payout - fromStake)
              payouts := (bettor, payout) :: s.payouts }
        else Except.error FortunaError.WrongOutcome
  else Except.error FortunaError.MarketNotResolved

/-- Modelled from the spec: claim_refund of section 4.2, refunding the
net stake of an unclaimed bet on a cancelled market; the already-claimed
guard again fires before any transfer. -/
def claimRefund (s : FortunaState) (bettor : Nat) :
    Except FortunaError FortunaState :=
  if s.market.status = MarketStatus.Cancelled then
    match s.bets.lookup bettor with
    | none => Except.error FortunaError.Unauthorized
    | some bet =>
      if bet.claimed = true then Except.error FortunaError.AlreadyClaimed
      else
        Except.ok
          { s with
            bets := setBet s.bets bettor { bet with claimed := true }
            stakeVault := s.stakeVault - bet.poolAmount
            payouts := (bettor, bet.poolAmount) :: s.payouts }
  else Except.error FortunaError.MarketNotCancelled

/-- The operations of the state machine, for quantifying over every
transition at once. -/
inductive Op where
  | place (bettor now idx : Nat)
  | withdraw (bettor now : Nat)
  | resolve (caller now w : Nat)
  | oracleResolve (caller now w : Nat)
  | cancel (caller : Nat)
  | claimW (bettor : Nat)
  | claimR (bettor : Nat)
  deriving DecidableEq

/-- Dispatch an operation. -/
def step : Op → FortunaState → Except FortunaError FortunaState
  | Op.place bettor now idx, s => placeBet s bettor now idx
  | Op.withdraw bettor now, s => withdrawBet s bettor now
  | Op.resolve caller now w, s => resolveMarket s caller now w
  | Op.oracleResolve caller now w, s => oracleResolveMarket s caller now w
  | Op.cancel caller, s => cancelMarket s caller
  | Op.claimW bettor, s => claimWinnings s bettor
  | Op.claimR bettor, s => claimRefund s bettor

/-- All-or-nothing commit: a failed operation leaves every record
byte-identical to before the call. -/
def runOp (op : Op) (s : FortunaState) : FortunaState :=
  match step op s with
  | Except.ok s1 => s1
  | Except.error _ => s

/-- A fresh 2-outcome market with Scenario A fees (50, 50, 500), fixed
bet amount 10,000,000, betting deadline 100, resolution deadline 200,
created by identity 0. -/
def demoInitState : FortunaState :=
  { cfg := { protocolFeeBps := 50, creatorFeeBps := 50, poolFeeBps := 500 }
    market :=
      { creator := 0
        betAmount := 10000000
        bettingDeadline := 100
        resolutionDeadline := 200
        category := 1
        oracle := none
        status := MarketStatus.Open
        winningOutcome := 0
        totalPool := 0
        bonusPool := 0
        outcomes := [{ totalAmount := 0, bettorCount := 0 },
                     { totalAmount := 0, bettorCount := 0 }]
        resolvedAt := 0
        resolvedByOracle := false }
    bets := []
    oracles := []
    stakeVault := 0
    bonusVault := 0
    treasuryBalance := 0
    creatorBalance := 0
    payouts := [] }

/-- The state reached after bettor 1 places a bet on outcome 0 of the
demo market. -/
def demoAfterFirstBet : FortunaState :=
  match placeBet demoInitState 1 10 0 with
  | Except.ok s => s
  | Except.error _ => demoInitState

/-- The demo market already cancelled by its creator. -/
def demoCancelledState : FortunaState :=
  { demoInitState with
      market := { demoInitState.market with status := MarketStatus.Cancelled } }

/-- An already-claimed winning bet by bettor 1 on the demo market. -/
def demoClaimedBet : Bet :=
  { outcomeIndex := 0
    originalAmount := 10000000
    poolAmount := 9400000
    claimed := true
    placedAt := 10 }

/-- The demo market resolved in favor of outcome 0 while holding the
already-claimed bet of bettor 1. -/
def demoResolvedClaimedState : FortunaState :=
  { demoInitState with
      market :=
        { demoInitState.market with
            status := MarketStatus.Resolved
            winningOutcome := 0 }
      bets := [(1, demoClaimedBet)] }

/-- Truncating and flooring integer division agree on a non-negative
dividend and a non-negative divisor. -/
theorem tdiv_eq_fdiv_of_nonneg (a b : Int) (ha : 0 ≤ a) (hb : 0 ≤ b) :
    Int.tdiv a b = Int.fdiv a b := by
  obtain ⟨m, rfl⟩ := Int.eq_ofNat_of_zero_le ha
  obtain ⟨n, rfl⟩ := Int.eq_ofNat_of_zero_le hb
  rw [← Int.ofNat_tdiv, ← Int.ofNat_fdiv]

/-- C1: for every bps triple with sum at most 1000 and every positive
amount, the components returned by calculateFees satisfy
poolFee + creatorFee + protocolFee + netAmount = amount. -/
theorem calculateFees_components_sum_to_amount
    (amount protocolFeeBps creatorFeeBps poolFeeBps : Int)
    (_hamount : 0 < amount)
    (_hsum : protocolFeeBps + creatorFeeBps + poolFeeBps ≤ 1000) :
    (calculateFees amount protocolFeeBps creatorFeeBps poolFeeBps).poolFee +
      (calculateFees amount protocolFeeBps creatorFeeBps poolFeeBps).creatorFee +
      (calculateFees amount protocolFeeBps creatorFeeBps poolFeeBps).protocolFee +
      (calculateFees amount protocolFeeBps creatorFeeBps poolFeeBps).netAmount =
      amount := by
  simp only [calculateFees]
  ring

theorem calculateFees_components_sum_to_amount_witness :
    (calculateFees 10000000 50 50 500).poolFee +
      (calculateFees 10000000 50 50 500).creatorFee +
      (calculateFees 10000000 50 50 500).protocolFee +
      (calculateFees 10000000 50 50 500).netAmount = 10000000 :=
  calculateFees_components_sum_to_amount 10000000 50 50 500 (by decide)
    (by decide)

/-- C2: for a non-negative amount and non-negative bps values, each fee
component of calculateFees is the floor of amount * bps / 10000, each
division independent, and netAmount is the amount minus the sum of the
three fees; in particular Scenario A evaluates to
(500000, 50000, 50000, 9400000). -/
theorem calculateFees_floor_per_component
    (amount protocolFeeBps creatorFeeBps poolFeeBps : Int)
    (hamount : 0 ≤ amount) (hp : 0 ≤ protocolFeeBps)
    (hc : 0 ≤ creatorFeeBps) (hpool : 0 ≤ poolFeeBps) :
    ((calculateFees amount protocolFeeBps creatorFeeBps poolFeeBps).poolFee =
        Int.fdiv (amount * poolFeeBps) 10000 ∧
      (calculateFees amount protocolFeeBps creatorFeeBps poolFeeBps).creatorFee =
        Int.fdiv (amount * creatorFeeBps) 10000 ∧
      (calculateFees amount protocolFeeBps creatorFeeBps poolFeeBps).protocolFee =
        Int.fdiv (amount * protocolFeeBps) 10000 ∧
      (calculateFees amount protocolFeeBps creatorFeeBps poolFeeBps).netAmount =
        amount -
          ((calculateFees amount protocolFeeBps creatorFeeBps poolFeeBps).poolFee +
            (calculateFees amount protocolFeeBps creatorFeeBps poolFeeBps).creatorFee +
            (calculateFees amount protocolFeeBps creatorFeeBps poolFeeBps).protocolFee)) ∧
    calculateFees 10000000 50 50 500 =
      { poolFee := 500000, creatorFee := 50000, protocolFee := 50000,
        netAmount := 9400000, totalFees := 600000 } := by
  refine ⟨⟨?_, ?_, ?_, rfl⟩, by decide⟩
  · simpa [calculateFees, BPS_DENOMINATOR] using
      tdiv_eq_fdiv_of_nonneg (amount * poolFeeBps) 10000
        (mul_nonneg hamount hpool) (by decide)
  · simpa [calculateFees, BPS_DENOMINATOR] using
      tdiv_eq_fdiv_of_nonneg (amount * creatorFeeBps) 10000
        (mul_nonneg hamount hc) (by decide)
  · simpa [calculateFees, BPS_DENOMINATOR] using
      tdiv_eq_fdiv_of_nonneg (amount * protocolFeeBps) 10000
        (mul_nonneg hamount hp) (by decide)

theorem calculateFees_floor_per_component_witness :
    (calculateFees 10000000 50 50 500).poolFee =
      Int.fdiv (10000000 * 500) 10000 :=
  (calculateFees_floor_per_component 10000000 50 50 500 (by decide) (by decide)
      (by decide) (by decide)).1.1

/-- C3: calculatePotentialWinnings returns
netAmount * (totalPool + bonusPool + netAmount) divided (truncating)
by (currentOutcomeTotal + netAmount), where netAmount is the fee-engine
net of betAmount, and returns the full distributable amount
totalPool + bonusPool + netAmount when that denominator is zero. -/
theorem calculatePotentialWinnings_share_rule
    (betAmount currentOutcomeTotal totalPool bonusPool : Int)
    (protocolFeeBps creatorFeeBps poolFeeBps : Int) :
    (currentOutcomeTotal +
          (calculateFees betAmount protocolFeeBps creatorFeeBps poolFeeBps).netAmount ≠ 0 →
        calculatePotentialWinnings betAmount currentOutcomeTotal totalPool bonusPool
            protocolFeeBps creatorFeeBps poolFeeBps =
          Int.tdiv
            ((calculateFees betAmount protocolFeeBps creatorFeeBps poolFeeBps).netAmount *
              (totalPool + bonusPool +
                (calculateFees betAmount protocolFeeBps creatorFeeBps poolFeeBps).netAmount))
            (currentOutcomeTotal +
              (calculateFees betAmount protocolFeeBps creatorFeeBps poolFeeBps).netAmount)) ∧
    (currentOutcomeTotal +
          (calculateFees betAmount protocolFeeBps creatorFeeBps poolFeeBps).netAmount = 0 →
        calculatePotentialWinnings betAmount currentOutcomeTotal totalPool bonusPool
            protocolFeeBps creatorFeeBps poolFeeBps =
          totalPool + bonusPool +
            (calculateFees betAmount protocolFeeBps creatorFeeBps poolFeeBps).netAmount) := by
  constructor <;> intro h
  · simp only [calculatePotentialWinnings]
    rw [if_neg h]
  · simp only [calculatePotentialWinnings]
    rw [if_pos h]

theorem calculatePotentialWinnings_share_rule_witness :
    calculatePotentialWinnings 10000000 0 0 0 50 50 500 =
      Int.tdiv
        ((calculateFees 10000000 50 50 500).netAmount *
          (0 + 0 + (calculateFees 10000000 50 50 500).netAmount))
        (0 + (calculateFees 10000000 50 50 500).netAmount) :=
  (calculatePotentialWinnings_share_rule 10000000 0 0 0 50 50 500).1 (by decide)

/-- The XOR fold of generateLicenseKey never changes the hash length. -/
theorem licenseKeyFold_length (data : List Nat) :
    ∀ (i : Nat) (hash : List Nat),
      (licenseKeyFold data i hash).length = hash.length := by
  induction data with
  | nil => intro i hash; rfl
  | cons b rest ih =>
      intro i hash
      simp only [licenseKeyFold, ih, List.length_set]

/-- C8 counterexample: two distinct issuer-chosen seeds produce the same
32-byte license key, so the XOR-fold content-addressing of
generateLicenseKey is not collision-free. -/
theorem generateLicenseKey_collision :
    seedAThenBs ≠ seedBsThenA ∧
      generateLicenseKey seedAThenBs = generateLicenseKey seedBsThenA := by
  decide

/-- C8 (amended): generateLicenseKey maps every issuer-chosen seed to a
32-byte key, but the map is not injective, so distinct seeds can collide
on the same key. -/
theorem generateLicenseKey_always_32_bytes (data : List Nat) :
    (generateLicenseKey data).length = 32 := by
  simp [generateLicenseKey, licenseKeyFold_length]

/-- Reading digits most significant first is Nat.ofDigits of the
reversed list, shifted by the accumulator. -/
theorem foldl_digits_eq_ofDigits (l : List Nat) :
    ∀ acc : Nat,
      l.foldl (fun a d => a * 10 + d) acc =
        acc * 10 ^ l.length + Nat.ofDigits 10 l.reverse := by
  induction l with
  | nil => intro acc; simp [Nat.ofDigits]
  | cons d t ih =>
      intro acc
      rw [List.foldl_cons, ih (acc * 10 + d)]
      simp only [List.reverse_cons, Nat.ofDigits_append, List.length_cons,
        List.length_reverse, Nat.ofDigits_singleton]
      ring

/-- digitsValue inverts the decimal printing of a natural number. -/
theorem digitsValue_natDigits (n : Nat) : digitsValue (natDigits n) = n := by
  unfold digitsValue natDigits
  by_cases h : n = 0
  · simp [h]
  · rw [if_neg h, foldl_digits_eq_ofDigits, List.reverse_reverse,
      Nat.ofDigits_digits]
    simp

/-- Leading zero digits do not change the value of a digit list. -/
theorem digitsValue_replicate_zero_append (m : Nat) (l : List Nat) :
    digitsValue (List.replicate m 0 ++ l) = digitsValue l := by
  unfold digitsValue
  rw [List.foldl_append]
  induction m with
  | zero => rfl
  | succ k ih => simpa [List.replicate_succ] using ih

/-- C9: parseAmount inverts formatAmount for every amount and every
decimals value of at least 1, while for decimals = 0 formatAmount emits
the whole value as the fractional part, parseAmount discards it, and
the round trip returns 0 for every amount. -/
theorem parseAmount_formatAmount_roundtrip :
    (∀ amount d : Nat, 1 ≤ d →
        parseAmount (formatAmount amount d).1 (formatAmount amount d).2 d =
          amount) ∧
    (∀ amount : Nat,
        parseAmount (formatAmount amount 0).1 (formatAmount amount 0).2 0 =
          0) := by
  constructor
  · intro amount d hd
    have hd0 : d ≠ 0 := by omega
    set s := padStartZeros (natDigits amount) (d + 1) with hs
    have hslen : d + 1 ≤ s.length := by
      simp only [hs, padStartZeros, List.length_append, List.length_replicate]
      omega
    have hip : sliceDropLast s d = s.take (s.length - d) := by
      simp [sliceDropLast, hd0]
    have hipne : s.take (s.length - d) ≠ [] := by
      intro hnil
      have := congrArg List.length hnil
      simp only [List.length_take, List.length_nil] at this
      omega
    have hdp : sliceLast s d = s.drop (s.length - d) := by
      simp [sliceLast, hd0]
    have hfmt :
        formatAmount amount d =
          (s.take (s.length - d), s.drop (s.length - d)) := by
      simp only [formatAmount, ← hs, hip, hdp, if_neg hipne]
    rw [hfmt]
    have hdplen : (s.drop (s.length - d)).length = d := by
      simp only [List.length_drop]
      omega
    have hpad :
        padEndZerosTake (s.drop (s.length - d)) d = s.drop (s.length - d) := by
      simp [padEndZerosTake, hdplen]
    rw [parseAmount, hpad, List.take_append_drop, hs, padStartZeros,
      digitsValue_replicate_zero_append, digitsValue_natDigits]
  · intro amount
    simp [parseAmount, formatAmount, sliceDropLast, sliceLast,
      padEndZerosTake, digitsValue]

theorem parseAmount_formatAmount_roundtrip_witness :
    parseAmount (formatAmount 1234567 6).1 (formatAmount 1234567 6).2 6 =
      1234567 :=
  parseAmount_formatAmount_roundtrip.1 1234567 6 (by decide)

/-- categoryMark never changes the vector length. -/
theorem categoryMark_length (result : List Bool) (cat : Int) :
    (categoryMark result cat).length = result.length := by
  unfold categoryMark
  split <;> simp

/-- The fold of categoriesToBoolArray never changes the vector length. -/
theorem categoryMark_foldl_length (l : List Int) :
    ∀ acc : List Bool, (l.foldl categoryMark acc).length = acc.length := by
  induction l with
  | nil => intro acc; rfl
  | cons c t ih =>
      intro acc
      rw [List.foldl_cons, ih, categoryMark_length]

/-- getD after set at an in-bounds index. -/
theorem getD_set_of_lt (l : List Bool) (j : Nat) (b : Bool) (i : Nat)
    (hj : j < l.length) :
    (l.set j b).getD i false = if j = i then b else l.getD i false := by
  by_cases h : j = i
  · subst h
    simp [List.getD_eq_getElem?_getD, List.getElem?_set_self hj]
  · simp [List.getD_eq_getElem?_getD, List.getElem?_set_ne h, h]

/-- Entry i of the fold of categoriesToBoolArray is set exactly when the
value i occurs in the input (for i below 12). -/
theorem categoryMark_foldl_getD (l : List Int) :
    ∀ (acc : List Bool) (i : Nat), acc.length = 12 → i < 12 →
      (l.foldl categoryMark acc).getD i false =
        (acc.getD i false || decide ((i : Int) ∈ l)) := by
  induction l with
  | nil => intro acc i _ _; simp
  | cons c t ih =>
      intro acc i hlen hi
      rw [List.foldl_cons,
        ih (categoryMark acc c) i (by rw [categoryMark_length]; exact hlen) hi]
      unfold categoryMark
      by_cases hc : 0 ≤ c ∧ c < 12
      · rw [if_pos hc,
          getD_set_of_lt acc c.toNat true i
            (by rw [hlen]; omega)]
        by_cases hci : c.toNat = i
        · have hcint : c = (i : Int) := by omega
          simp [hci, hcint]
        · have hcint : (i : Int) ≠ c := by omega
          simp [hci, hcint]
      · rw [if_neg hc]
        have hcint : (i : Int) ≠ c := by
          intro hrf
          rw [← hrf] at hc
          exact hc ⟨by omega, by omega⟩
        simp [hcint]

/-- Out-of-range category values leave the fold of categoriesToBoolArray
unchanged. -/
theorem categoryMark_foldl_filter (l : List Int) :
    ∀ acc : List Bool,
      l.foldl categoryMark acc =
        (l.filter (fun c => decide (0 ≤ c ∧ c < 12))).foldl categoryMark acc := by
  induction l with
  | nil => intro acc; rfl
  | cons c t ih =>
      intro acc
      rw [List.foldl_cons, List.filter_cons]
      by_cases hc : 0 ≤ c ∧ c < 12
      · rw [if_pos (by simpa using hc), List.foldl_cons, ih]
      · rw [if_neg (by simpa using hc)]
        have hstep : categoryMark acc c = acc := by
          unfold categoryMark
          rw [if_neg hc]
        rw [hstep, ih]

/-- C10: categoriesToBoolArray always returns a 12-entry boolean vector
and ignores values outside [0, 12); and for a list of in-range category
values the round trip through boolArrayToCategories returns exactly the
distinct members of the list in ascending numeric order. -/
theorem categories_boolArray_roundtrip :
    (∀ l : List Int,
        (categoriesToBoolArray l).length = 12 ∧
        categoriesToBoolArray l =
          categoriesToBoolArray (l.filter (fun c => decide (0 ≤ c ∧ c < 12)))) ∧
    (∀ l : List Int, (∀ c ∈ l, 0 ≤ c ∧ c < 12) →
        boolArrayToCategories (categoriesToBoolArray l) =
          ((List.range 12).filter (fun i : Nat => decide ((i : Int) ∈ l))).map
            (fun i : Nat => (i : Int))) := by
  constructor
  · intro l
    refine ⟨?_, ?_⟩
    · rw [categoriesToBoolArray, categoryMark_foldl_length]
      rfl
    · rw [categoriesToBoolArray, categoriesToBoolArray,
        categoryMark_foldl_filter]
  · intro l _hl
    have hlen : (categoriesToBoolArray l).length = 12 := by
      rw [categoriesToBoolArray, categoryMark_foldl_length]
      rfl
    rw [boolArrayToCategories, hlen]
    have hfilter :
        (List.range 12).filter (fun i => (categoriesToBoolArray l).getD i false) =
          (List.range 12).filter (fun i : Nat => decide ((i : Int) ∈ l)) := by
      apply List.filter_congr
      intro i hi
      have hi12 : i < 12 := List.mem_range.mp hi
      have hrep : (List.replicate 12 false).getD i false = false := by
        rw [List.getD_eq_getElem?_getD, List.getElem?_replicate]
        split <;> rfl
      rw [categoriesToBoolArray,
        categoryMark_foldl_getD l (List.replicate 12 false) i (by rfl) hi12,
        hrep, Bool.false_or]
    rw [show min 12 12 = 12 from rfl, hfilter]

theorem categories_boolArray_roundtrip_witness :
    boolArrayToCategories (categoriesToBoolArray [3, 1, 3]) = [1, 3] := by
  rw [categories_boolArray_roundtrip.2 [3, 1, 3] (by decide)]
  decide

/-- C4: in a 2-outcome market with Scenario A fees, two bets of
10,000,000 on opposite outcomes followed by resolution in favor of
outcome 0 pay the outcome-0 bettor
9,400,000 * (18,800,000 + 1,000,000) / 9,400,000 = 19,800,000 through
claim_winnings, and the section 4.1 estimator evaluated on the same
final totals returns the same value. -/
theorem scenarioB_settlement_matches_estimator :
    (Except.bind (placeBet demoInitState 1 10 0) (fun s1 =>
        Except.bind (placeBet s1 2 11 1) (fun s2 =>
          Except.bind (resolveMarket s2 0 150 0) (fun s3 =>
            Except.map (fun s4 => s4.payouts.lookup 1) (claimWinnings s3 1))))) =
      Except.ok (some 19800000) ∧
    calculatePotentialWinnings 10000000 0 9400000 1000000 50 50 500 =
      (19800000 : Int) := by
  exact ⟨rfl, by decide⟩

/-- A successful place_bet leaves the market open and a Bet recorded for
the bettor. -/
theorem placeBet_ok_props (s : FortunaState) (bettor now idx : Nat)
    (s1 : FortunaState) (h : placeBet s bettor now idx = Except.ok s1) :
    s1.market.status = MarketStatus.Open ∧
      (s1.bets.lookup bettor).isSome = true := by
  unfold placeBet at h
  split_ifs at h with h1 h2 h3 h4
  injection h with h
  subst h
  exact ⟨h1, by simp [List.lookup]⟩

/-- C5: the bet record address seeds are the fixed bet tag followed by
the market address and the bettor identity, and for 32-byte addresses
this layout determines the (market, bettor) pair uniquely; accordingly,
once a bettor's place_bet has succeeded on a market, a second place_bet
by the same bettor on that market fails with AlreadyBet. -/
theorem one_bet_per_market_and_bettor :
    (∀ (m b m2 b2 : List Nat), m.length = 32 → m2.length = 32 →
        betSeeds m b = betSeeds m2 b2 → m = m2 ∧ b = b2) ∧
    (∀ (s : FortunaState) (bettor now idx : Nat) (s1 : FortunaState),
        placeBet s bettor now idx = Except.ok s1 →
        ∀ now2 idx2 : Nat, now2 < s1.market.bettingDeadline →
          idx2 < s1.market.outcomes.length →
          placeBet s1 bettor now2 idx2 =
            Except.error FortunaError.AlreadyBet) := by
  constructor
  · intro m b m2 b2 hm hm2 h
    unfold betSeeds at h
    obtain ⟨h2, hb⟩ := List.append_inj h (by simp [BET_SEED, hm, hm2])
    exact ⟨List.append_cancel_left h2, hb⟩
  · intro s bettor now idx s1 h now2 idx2 hnow2 hidx2
    obtain ⟨hstat, hbet⟩ := placeBet_ok_props s bettor now idx s1 h
    unfold placeBet
    rw [if_pos hstat, if_pos hnow2, if_pos hidx2, if_pos hbet]

theorem one_bet_per_market_and_bettor_witness :
    placeBet demoAfterFirstBet 1 11 0 = Except.error FortunaError.AlreadyBet :=
  one_bet_per_market_and_bettor.2 demoInitState 1 10 0 demoAfterFirstBet rfl
    11 0 (by decide) (by decide)

/-- C6: every successful transition either keeps a market's status or
moves it from Open into Resolved or Cancelled, so no operation leaves a
terminal status; and cancel_market invoked by the creator on an already
cancelled market fails with MarketNotOpen and leaves the status
Cancelled. -/
theorem market_status_one_directional :
    (∀ (op : Op) (s s1 : FortunaState), step op s = Except.ok s1 →
        s1.market.status = s.market.status ∨
          (s.market.status = MarketStatus.Open ∧
            (s1.market.status = MarketStatus.Resolved ∨
              s1.market.status = MarketStatus.Cancelled))) ∧
    (∀ (s : FortunaState) (caller : Nat),
        s.market.status = MarketStatus.Cancelled →
        caller = s.market.creator →
        cancelMarket s caller = Except.error FortunaError.MarketNotOpen ∧
          (runOp (Op.cancel caller) s).market.status =
            MarketStatus.Cancelled) := by
  constructor
  · intro op s s1 h
    cases op with
    | place bettor now idx =>
        simp only [step] at h
        unfold placeBet at h
        split_ifs at h with h1 h2 h3 h4
        all_goals first
          | exact Except.noConfusion h
          | (injection h with h; subst h; left; rfl)
    | withdraw bettor now =>
        simp only [step] at h
        unfold withdrawBet at h
        split_ifs at h with h1 h2
        split at h
        · exact Except.noConfusion h
        · split_ifs at h with hcl
          all_goals first
            | exact Except.noConfusion h
            | (injection h with h; subst h; left; rfl)
    | resolve caller now w =>
        simp only [step] at h
        unfold resolveMarket at h
        split_ifs at h with h1 h2 h3 h4
        all_goals first
          | exact Except.noConfusion h
          | (injection h with h; subst h; right; exact ⟨h2, Or.inl rfl⟩)
    | oracleResolve caller now w =>
        simp only [step] at h
        unfold oracleResolveMarket at h
        split at h
        · exact Except.noConfusion h
        · split at h
          · exact Except.noConfusion h
          · split_ifs at h with h1 h2 h3 h4 h5 h6
            all_goals first
              | exact Except.noConfusion h
              | (injection h with h; subst h; right; exact ⟨h4, Or.inl rfl⟩)
    | cancel caller =>
        simp only [step] at h
        unfold cancelMarket at h
        split_ifs at h with h1 h2
        all_goals first
          | exact Except.noConfusion h
          | (injection h with h; subst h; right; exact ⟨h2, Or.inr rfl⟩)
    | claimW bettor =>
        simp only [step] at h
        unfold claimWinnings at h
        split_ifs at h with h1
        split at h
        · exact Except.noConfusion h
        · split_ifs at h with hcl hout
          all_goals first
            | exact Except.noConfusion h
            | (injection h with h; subst h; left; rfl)
    | claimR bettor =>
        simp only [step] at h
        unfold claimRefund at h
        split_ifs at h with h1
        split at h
        · exact Except.noConfusion h
        · split_ifs at h with hcl
          all_goals first
            | exact Except.noConfusion h
            | (injection h with h; subst h; left; rfl)
  · intro s caller hstat hcaller
    have hne : s.market.status ≠ MarketStatus.Open := by
      rw [hstat]
      simp
    have herr :
        cancelMarket s caller = Except.error FortunaError.MarketNotOpen := by
      unfold cancelMarket
      rw [if_pos hcaller, if_neg hne]
    refine ⟨herr, ?_⟩
    simp only [runOp, step, herr]
    exact hstat

theorem market_status_one_directional_witness :
    cancelMarket demoCancelledState 0 = Except.error FortunaError.MarketNotOpen :=
  (market_status_one_directional.2 demoCancelledState 0 rfl rfl).1

/-- C7: on a Bet whose claimed flag is already set, a second
claim_winnings (on a resolved market) or claim_refund (on a cancelled
market) fails with AlreadyClaimed, and the failed call transfers no
value and leaves every record byte-identical to before the call. -/
theorem already_claimed_bet_rejects_second_claim :
    ∀ (s : FortunaState) (bettor : Nat) (bet : Bet),
      s.bets.lookup bettor = some bet → bet.claimed = true →
      (s.market.status = MarketStatus.Resolved →
          claimWinnings s bettor = Except.error FortunaError.AlreadyClaimed ∧
            runOp (Op.claimW bettor) s = s) ∧
      (s.market.status = MarketStatus.Cancelled →
          claimRefund s bettor = Except.error FortunaError.AlreadyClaimed ∧
            runOp (Op.claimR bettor) s = s) := by
  intro s bettor bet hlk hcl
  constructor
  · intro hstat
    have herr :
        claimWinnings s bettor = Except.error FortunaError.AlreadyClaimed := by
      unfold claimWinnings
      rw [if_pos hstat]
      simp only [hlk]
      rw [if_pos hcl]
    refine ⟨herr, ?_⟩
    simp only [runOp, step, herr]
  · intro hstat
    have herr :
        claimRefund s bettor = Except.error FortunaError.AlreadyClaimed := by
      unfold claimRefund
      rw [if_pos hstat]
      simp only [hlk]
      rw [if_pos hcl]
    refine ⟨herr, ?_⟩
    simp only [runOp, step, herr]

theorem already_claimed_bet_rejects_second_claim_witness :
    claimWinnings demoResolvedClaimedState 1 =
      Except.error FortunaError.AlreadyClaimed :=
  ((already_claimed_bet_rejects_second_claim demoResolvedClaimedState 1
      demoClaimedBet rfl rfl).1 rfl).1

end Fortuna
